import Mathlib

/- Verification of the encryption subsystem of the sameer-shared SDK:
   the EncryptionService class (AES-256-CBC with a fixed key/IV plus SHA-256
   hashing, src/services/encryption.service.ts) and its factory/lifecycle
   layer (src/services/encryption.factory.ts). The cryptographic primitives
   the service delegates to (Node crypto: AES-256-CBC with PKCS#7 padding,
   SHA-256, Buffer hex codecs, UTF-8 string conversion) are embedded as
   executable definitions following their standards (SHA-256 round constants
   are written in decimal); the service and factory definitions are
   translated from the TypeScript source. -/

set_option maxHeartbeats 4000000
set_option maxRecDepth 100000

abbrev Byte := Fin 256

def mkByte (n : Nat) : Byte := ⟨n % 256, Nat.mod_lt _ (by omega)⟩

/-- Byte xor (addition in GF(256)). -/
def bxor (a b : Byte) : Byte :=
  ⟨a.val ^^^ b.val, by
    have e : (2 : Nat) ^ 8 = 256 := by norm_num
    calc a.val ^^^ b.val < 2 ^ 8 :=
          Nat.xor_lt_two_pow (by rw [e]; exact a.isLt) (by rw [e]; exact b.isLt)
      _ = 256 := e⟩

def xtime (b : Byte) : Byte :=
  mkByte (if 128 ≤ b.val then ((2 * b.val) % 256) ^^^ 27 else 2 * b.val)

def sboxT : List Nat :=
  [0x63, 0x7c, 0x77, 0x7b, 0xf2, 0x6b, 0x6f, 0xc5, 0x30, 0x01, 0x67, 0x2b, 0xfe, 0xd7, 0xab, 0x76,
   0xca, 0x82, 0xc9, 0x7d, 0xfa, 0x59, 0x47, 0xf0, 0xad, 0xd4, 0xa2, 0xaf, 0x9c, 0xa4, 0x72, 0xc0,
   0xb7, 0xfd, 0x93, 0x26, 0x36, 0x3f, 0xf7, 0xcc, 0x34, 0xa5, 0xe5, 0xf1, 0x71, 0xd8, 0x31, 0x15,
   0x04, 0xc7, 0x23, 0xc3, 0x18, 0x96, 0x05, 0x9a, 0x07, 0x12, 0x80, 0xe2, 0xeb, 0x27, 0xb2, 0x75,
   0x09, 0x83, 0x2c, 0x1a, 0x1b, 0x6e, 0x5a, 0xa0, 0x52, 0x3b, 0xd6, 0xb3, 0x29, 0xe3, 0x2f, 0x84,
   0x53, 0xd1, 0x00, 0xed, 0x20, 0xfc, 0xb1, 0x5b, 0x6a, 0xcb, 0xbe, 0x39, 0x4a, 0x4c, 0x58, 0xcf,
   0xd0, 0xef, 0xaa, 0xfb, 0x43, 0x4d, 0x33, 0x85, 0x45, 0xf9, 0x02, 0x7f, 0x50, 0x3c, 0x9f, 0xa8,
   0x51, 0xa3, 0x40, 0x8f, 0x92, 0x9d, 0x38, 0xf5, 0xbc, 0xb6, 0xda, 0x21, 0x10, 0xff, 0xf3, 0xd2,
   0xcd, 0x0c, 0x13, 0xec, 0x5f, 0x97, 0x44, 0x17, 0xc4, 0xa7, 0x7e, 0x3d, 0x64, 0x5d, 0x19, 0x73,
   0x60, 0x81, 0x4f, 0xdc, 0x22, 0x2a, 0x90, 0x88, 0x46, 0xee, 0xb8, 0x14, 0xde, 0x5e, 0x0b, 0xdb,
   0xe0, 0x32, 0x3a, 0x0a, 0x49, 0x06, 0x24, 0x5c, 0xc2, 0xd3, 0xac, 0x62, 0x91, 0x95, 0xe4, 0x79,
   0xe7, 0xc8, 0x37, 0x6d, 0x8d, 0xd5, 0x4e, 0xa9, 0x6c, 0x56, 0xf4, 0xea, 0x65, 0x7a, 0xae, 0x08,
   0xba, 0x78, 0x25, 0x2e, 0x1c, 0xa6, 0xb4, 0xc6, 0xe8, 0xdd, 0x74, 0x1f, 0x4b, 0xbd, 0x8b, 0x8a,
   0x70, 0x3e, 0xb5, 0x66, 0x48, 0x03, 0xf6, 0x0e, 0x61, 0x35, 0x57, 0xb9, 0x86, 0xc1, 0x1d, 0x9e,
   0xe1, 0xf8, 0x98, 0x11, 0x69, 0xd9, 0x8e, 0x94, 0x9b, 0x1e, 0x87, 0xe9, 0xce, 0x55, 0x28, 0xdf,
   0x8c, 0xa1, 0x89, 0x0d, 0xbf, 0xe6, 0x42, 0x68, 0x41, 0x99, 0x2d, 0x0f, 0xb0, 0x54, 0xbb, 0x16]

def invSboxT : List Nat :=
  [0x52, 0x09, 0x6a, 0xd5, 0x30, 0x36, 0xa5, 0x38, 0xbf, 0x40, 0xa3, 0x9e, 0x81, 0xf3, 0xd7, 0xfb,
   0x7c, 0xe3, 0x39, 0x82, 0x9b, 0x2f, 0xff, 0x87, 0x34, 0x8e, 0x43, 0x44, 0xc4, 0xde, 0xe9, 0xcb,
   0x54, 0x7b, 0x94, 0x32, 0xa6, 0xc2, 0x23, 0x3d, 0xee, 0x4c, 0x95, 0x0b, 0x42, 0xfa, 0xc3, 0x4e,
   0x08, 0x2e, 0xa1, 0x66, 0x28, 0xd9, 0x24, 0xb2, 0x76, 0x5b, 0xa2, 0x49, 0x6d, 0x8b, 0xd1, 0x25,
   0x72, 0xf8, 0xf6, 0x64, 0x86, 0x68, 0x98, 0x16, 0xd4, 0xa4, 0x5c, 0xcc, 0x5d, 0x65, 0xb6, 0x92,
   0x6c, 0x70, 0x48, 0x50, 0xfd, 0xed, 0xb9, 0xda, 0x5e, 0x15, 0x46, 0x57, 0xa7, 0x8d, 0x9d, 0x84,
   0x90, 0xd8, 0xab, 0x00, 0x8c, 0xbc, 0xd3, 0x0a, 0xf7, 0xe4, 0x58, 0x05, 0xb8, 0xb3, 0x45, 0x06,
   0xd0, 0x2c, 0x1e, 0x8f, 0xca, 0x3f, 0x0f, 0x02, 0xc1, 0xaf, 0xbd, 0x03, 0x01, 0x13, 0x8a, 0x6b,
   0x3a, 0x91, 0x11, 0x41, 0x4f, 0x67, 0xdc, 0xea, 0x97, 0xf2, 0xcf, 0xce, 0xf0, 0xb4, 0xe6, 0x73,
   0x96, 0xac, 0x74, 0x22, 0xe7, 0xad, 0x35, 0x85, 0xe2, 0xf9, 0x37, 0xe8, 0x1c, 0x75, 0xdf, 0x6e,
   0x47, 0xf1, 0x1a, 0x71, 0x1d, 0x29, 0xc5, 0x89, 0x6f, 0xb7, 0x62, 0x0e, 0xaa, 0x18, 0xbe, 0x1b,
   0xfc, 0x56, 0x3e, 0x4b, 0xc6, 0xd2, 0x79, 0x20, 0x9a, 0xdb, 0xc0, 0xfe, 0x78, 0xcd, 0x5a, 0xf4,
   0x1f, 0xdd, 0xa8, 0x33, 0x88, 0x07, 0xc7, 0x31, 0xb1, 0x12, 0x10, 0x59, 0x27, 0x80, 0xec, 0x5f,
   0x60, 0x51, 0x7f, 0xa9, 0x19, 0xb5, 0x4a, 0x0d, 0x2d, 0xe5, 0x7a, 0x9f, 0x93, 0xc9, 0x9c, 0xef,
   0xa0, 0xe0, 0x3b, 0x4d, 0xae, 0x2a, 0xf5, 0xb0, 0xc8, 0xeb, 0xbb, 0x3c, 0x83, 0x53, 0x99, 0x61,
   0x17, 0x2b, 0x04, 0x7e, 0xba, 0x77, 0xd6, 0x26, 0xe1, 0x69, 0x14, 0x63, 0x55, 0x21, 0x0c, 0x7d]

def sbox (b : Byte) : Byte := mkByte (sboxT.getD b.val 0)

def invSbox (b : Byte) : Byte := mkByte (invSboxT.getD b.val 0)

def mul2 (b : Byte) : Byte := xtime b

def mul3 (b : Byte) : Byte := bxor (xtime b) b

def mul9 (b : Byte) : Byte := bxor (xtime (xtime (xtime b))) b

def mul11 (b : Byte) : Byte := bxor (bxor (xtime (xtime (xtime b))) (xtime b)) b

def mul13 (b : Byte) : Byte := bxor (bxor (xtime (xtime (xtime b))) (xtime (xtime b))) b

def mul14 (b : Byte) : Byte := bxor (bxor (xtime (xtime (xtime b))) (xtime (xtime b))) (xtime b)

instance : Std.Associative bxor := ⟨fun a b c => Fin.ext (Nat.xor_assoc a.val b.val c.val)⟩

instance : Std.Commutative bxor := ⟨fun a b => Fin.ext (Nat.xor_comm a.val b.val)⟩

/- Derived linearity of the GF(256) multipliers over byte xor. -/

/- MixColumns column transform (FIPS-197 §5.1.3) and its inverse (§5.3.3). -/

def mixCol0 (a b c d : Byte) : Byte := bxor (mul2 a) (bxor (mul3 b) (bxor c d))

def mixCol1 (a b c d : Byte) : Byte := bxor a (bxor (mul2 b) (bxor (mul3 c) d))

def mixCol2 (a b c d : Byte) : Byte := bxor a (bxor b (bxor (mul2 c) (mul3 d)))

def mixCol3 (a b c d : Byte) : Byte := bxor (mul3 a) (bxor b (bxor c (mul2 d)))

def invMixCol0 (a b c d : Byte) : Byte := bxor (mul14 a) (bxor (mul11 b) (bxor (mul13 c) (mul9 d)))

def invMixCol1 (a b c d : Byte) : Byte := bxor (mul9 a) (bxor (mul14 b) (bxor (mul11 c) (mul13 d)))

def invMixCol2 (a b c d : Byte) : Byte := bxor (mul13 a) (bxor (mul9 b) (bxor (mul14 c) (mul11 d)))

def invMixCol3 (a b c d : Byte) : Byte := bxor (mul11 a) (bxor (mul13 b) (bxor (mul9 c) (mul14 d)))

/- The 16-byte AES state, kept in the byte-stream order of the cipher input
   (byte i sits at row i % 4, column i / 4 of the FIPS-197 state). -/

structure AesBlock where
  b0 : Byte
  b1 : Byte
  b2 : Byte
  b3 : Byte
  b4 : Byte
  b5 : Byte
  b6 : Byte
  b7 : Byte
  b8 : Byte
  b9 : Byte
  b10 : Byte
  b11 : Byte
  b12 : Byte
  b13 : Byte
  b14 : Byte
  b15 : Byte
deriving DecidableEq

def subBytes (s : AesBlock) : AesBlock :=
  ⟨sbox s.b0, sbox s.b1, sbox s.b2, sbox s.b3, sbox s.b4, sbox s.b5, sbox s.b6, sbox s.b7,
   sbox s.b8, sbox s.b9, sbox s.b10, sbox s.b11, sbox s.b12, sbox s.b13, sbox s.b14, sbox s.b15⟩

def invSubBytes (s : AesBlock) : AesBlock :=
  ⟨invSbox s.b0, invSbox s.b1, invSbox s.b2, invSbox s.b3, invSbox s.b4, invSbox s.b5,
   invSbox s.b6, invSbox s.b7, invSbox s.b8, invSbox s.b9, invSbox s.b10, invSbox s.b11,
   invSbox s.b12, invSbox s.b13, invSbox s.b14, invSbox s.b15⟩

def shiftRows (s : AesBlock) : AesBlock :=
  ⟨s.b0, s.b5, s.b10, s.b15, s.b4, s.b9, s.b14, s.b3,
   s.b8, s.b13, s.b2, s.b7, s.b12, s.b1, s.b6, s.b11⟩

def invShiftRows (s : AesBlock) : AesBlock :=
  ⟨s.b0, s.b13, s.b10, s.b7, s.b4, s.b1, s.b14, s.b11,
   s.b8, s.b5, s.b2, s.b15, s.b12, s.b9, s.b6, s.b3⟩

def xorBlock (a b : AesBlock) : AesBlock :=
  ⟨bxor a.b0 b.b0, bxor a.b1 b.b1, bxor a.b2 b.b2, bxor a.b3 b.b3,
   bxor a.b4 b.b4, bxor a.b5 b.b5, bxor a.b6 b.b6, bxor a.b7 b.b7,
   bxor a.b8 b.b8, bxor a.b9 b.b9, bxor a.b10 b.b10, bxor a.b11 b.b11,
   bxor a.b12 b.b12, bxor a.b13 b.b13, bxor a.b14 b.b14, bxor a.b15 b.b15⟩

def addRoundKey (rk s : AesBlock) : AesBlock := xorBlock s rk

def mixColumns (s : AesBlock) : AesBlock :=
  ⟨mixCol0 s.b0 s.b1 s.b2 s.b3, mixCol1 s.b0 s.b1 s.b2 s.b3,
   mixCol2 s.b0 s.b1 s.b2 s.b3, mixCol3 s.b0 s.b1 s.b2 s.b3,
   mixCol0 s.b4 s.b5 s.b6 s.b7, mixCol1 s.b4 s.b5 s.b6 s.b7,
   mixCol2 s.b4 s.b5 s.b6 s.b7, mixCol3 s.b4 s.b5 s.b6 s.b7,
   mixCol0 s.b8 s.b9 s.b10 s.b11, mixCol1 s.b8 s.b9 s.b10 s.b11,
   mixCol2 s.b8 s.b9 s.b10 s.b11, mixCol3 s.b8 s.b9 s.b10 s.b11,
   mixCol0 s.b12 s.b13 s.b14 s.b15, mixCol1 s.b12 s.b13 s.b14 s.b15,
   mixCol2 s.b12 s.b13 s.b14 s.b15, mixCol3 s.b12 s.b13 s.b14 s.b15⟩

def invMixColumns (s : AesBlock) : AesBlock :=
  ⟨invMixCol0 s.b0 s.b1 s.b2 s.b3, invMixCol1 s.b0 s.b1 s.b2 s.b3,
   invMixCol2 s.b0 s.b1 s.b2 s.b3, invMixCol3 s.b0 s.b1 s.b2 s.b3,
   invMixCol0 s.b4 s.b5 s.b6 s.b7, invMixCol1 s.b4 s.b5 s.b6 s.b7,
   invMixCol2 s.b4 s.b5 s.b6 s.b7, invMixCol3 s.b4 s.b5 s.b6 s.b7,
   invMixCol0 s.b8 s.b9 s.b10 s.b11, invMixCol1 s.b8 s.b9 s.b10 s.b11,
   invMixCol2 s.b8 s.b9 s.b10 s.b11, invMixCol3 s.b8 s.b9 s.b10 s.b11,
   invMixCol0 s.b12 s.b13 s.b14 s.b15, invMixCol1 s.b12 s.b13 s.b14 s.b15,
   invMixCol2 s.b12 s.b13 s.b14 s.b15, invMixCol3 s.b12 s.b13 s.b14 s.b15⟩

/- AES-256 key expansion (FIPS-197 §5.2), Nk = 8, Nr = 14. -/

abbrev Word := Byte × Byte × Byte × Byte

def zeroWord : Word := (mkByte 0, mkByte 0, mkByte 0, mkByte 0)

def subWord (w : Word) : Word := (sbox w.1, sbox w.2.1, sbox w.2.2.1, sbox w.2.2.2)

def rotWord (w : Word) : Word := (w.2.1, w.2.2.1, w.2.2.2, w.1)

def xorWord (a b : Word) : Word :=
  (bxor a.1 b.1, bxor a.2.1 b.2.1, bxor a.2.2.1 b.2.2.1, bxor a.2.2.2 b.2.2.2)

def rconT : List Nat := [1, 2, 4, 8, 16, 32, 64]

def rconW (i : Nat) : Word := (mkByte (rconT.getD (i - 1) 0), mkByte 0, mkByte 0, mkByte 0)

def keyWord (kb : List Byte) (i : Nat) : Word :=
  (kb.getD (4 * i) (mkByte 0), kb.getD (4 * i + 1) (mkByte 0),
   kb.getD (4 * i + 2) (mkByte 0), kb.getD (4 * i + 3) (mkByte 0))

def ksNext (ws : List Word) (j : Nat) : List Word :=
  let i := j + 8
  let temp := ws.getD (i - 1) zeroWord
  let temp2 :=
    if i % 8 == 0 then xorWord (subWord (rotWord temp)) (rconW (i / 8))
    else if i % 8 == 4 then subWord temp
    else temp
  ws ++ [xorWord (ws.getD (i - 8) zeroWord) temp2]

def keyWords (kb : List Byte) : List Word :=
  (List.range 52).foldl ksNext ((List.range 8).map (keyWord kb))

def wordsToBlock (w0 w1 w2 w3 : Word) : AesBlock :=
  ⟨w0.1, w0.2.1, w0.2.2.1, w0.2.2.2, w1.1, w1.2.1, w1.2.2.1, w1.2.2.2,
   w2.1, w2.2.1, w2.2.2.1, w2.2.2.2, w3.1, w3.2.1, w3.2.2.1, w3.2.2.2⟩

def roundKey (kb : List Byte) (r : Nat) : AesBlock :=
  let ws := keyWords kb
  wordsToBlock (ws.getD (4 * r) zeroWord) (ws.getD (4 * r + 1) zeroWord)
    (ws.getD (4 * r + 2) zeroWord) (ws.getD (4 * r + 3) zeroWord)

/- The cipher and the (straightforward) inverse cipher, FIPS-197 §5.1 and §5.3. -/

def aesRound (rk s : AesBlock) : AesBlock := addRoundKey rk (mixColumns (shiftRows (subBytes s)))

def aesFinalRound (rk s : AesBlock) : AesBlock := addRoundKey rk (shiftRows (subBytes s))

def aesInvRound (rk s : AesBlock) : AesBlock :=
  invSubBytes (invShiftRows (invMixColumns (addRoundKey rk s)))

def encBlockWith (rk0 : AesBlock) (mids : List AesBlock) (rkLast : AesBlock)
    (b : AesBlock) : AesBlock :=
  aesFinalRound rkLast (mids.foldl (fun st rk => aesRound rk st) (addRoundKey rk0 b))

def decBlockWith (rk0 : AesBlock) (mids : List AesBlock) (rkLast : AesBlock)
    (c : AesBlock) : AesBlock :=
  addRoundKey rk0
    (mids.foldr aesInvRound (invSubBytes (invShiftRows (addRoundKey rkLast c))))

def aesMidKeys (kb : List Byte) : List AesBlock :=
  (List.range 13).map (fun i => roundKey kb (i + 1))

def encBlock (kb : List Byte) (b : AesBlock) : AesBlock :=
  encBlockWith (roundKey kb 0) (aesMidKeys kb) (roundKey kb 14) b

def decBlock (kb : List Byte) (c : AesBlock) : AesBlock :=
  decBlockWith (roundKey kb 0) (aesMidKeys kb) (roundKey kb 14) c

def blockToList (s : AesBlock) : List Byte :=
  [s.b0, s.b1, s.b2, s.b3, s.b4, s.b5, s.b6, s.b7,
   s.b8, s.b9, s.b10, s.b11, s.b12, s.b13, s.b14, s.b15]

def listToBlock (l : List Byte) : AesBlock :=
  ⟨l.getD 0 (mkByte 0), l.getD 1 (mkByte 0), l.getD 2 (mkByte 0), l.getD 3 (mkByte 0),
   l.getD 4 (mkByte 0), l.getD 5 (mkByte 0), l.getD 6 (mkByte 0), l.getD 7 (mkByte 0),
   l.getD 8 (mkByte 0), l.getD 9 (mkByte 0), l.getD 10 (mkByte 0), l.getD 11 (mkByte 0),
   l.getD 12 (mkByte 0), l.getD 13 (mkByte 0), l.getD 14 (mkByte 0), l.getD 15 (mkByte 0)⟩

/- Splitting a byte stream into 16-byte cipher blocks and flattening back. -/

def toBlocksFuel : Nat → List Byte → List AesBlock
  | _, [] => []
  | 0, _ :: _ => []
  | f + 1, b :: bs => listToBlock ((b :: bs).take 16) :: toBlocksFuel f ((b :: bs).drop 16)

def toBlocks (l : List Byte) : List AesBlock := toBlocksFuel l.length l

def fromBlocks : List AesBlock → List Byte
  | [] => []
  | b :: bs => blockToList b ++ fromBlocks bs

/- CBC chaining (what createCipheriv/createDecipheriv with aes-256-cbc compute). -/

def cbcEnc (kb : List Byte) (prev : AesBlock) : List AesBlock → List AesBlock
  | [] => []
  | b :: bs => encBlock kb (xorBlock prev b) :: cbcEnc kb (encBlock kb (xorBlock prev b)) bs

def cbcDec (kb : List Byte) (prev : AesBlock) : List AesBlock → List AesBlock
  | [] => []
  | c :: cs => xorBlock prev (decBlock kb c) :: cbcDec kb c cs

/- PKCS#7 block padding as applied/checked by OpenSSL for aes-256-cbc. -/

def padLen (n : Nat) : Nat := 16 - n % 16

def pad (bs : List Byte) : List Byte :=
  bs ++ List.replicate (padLen bs.length) (mkByte (padLen bs.length))

def unpadWith (bs : List Byte) : Option Byte → Option (List Byte)
  | none => none
  | some lastb =>
    if lastb.val = 0 ∨ 16 < lastb.val ∨ bs.length < lastb.val then none
    else if (bs.drop (bs.length - lastb.val)).all (fun x => x == lastb) then
      some (bs.take (bs.length - lastb.val))
    else none

def unpad (bs : List Byte) : Option (List Byte) := unpadWith bs bs.getLast?

/- Hexadecimal codec with Node Buffer semantics: decoding consumes character
   pairs and stops at the first pair containing a non-hex character; a trailing
   unpaired character is dropped. Encoding emits lowercase digits. -/

def hexVal (c : Char) : Option Nat :=
  if '0' ≤ c ∧ c ≤ '9' then some (c.toNat - '0'.toNat)
  else if 'a' ≤ c ∧ c ≤ 'f' then some (c.toNat - 'a'.toNat + 10)
  else if 'A' ≤ c ∧ c ≤ 'F' then some (c.toNat - 'A'.toNat + 10)
  else none

def hexPairs : List Char → List Byte
  | c1 :: c2 :: rest =>
    match hexVal c1 with
    | none => []
    | some h =>
      match hexVal c2 with
      | none => []
      | some l => mkByte (16 * h + l) :: hexPairs rest
  | _ => []

def hexCharsL : List Char := ("0123456789abcdef").data

def hexDigitChar (n : Nat) : Char := hexCharsL.getD n '0'

def hexEncodeBytes : List Byte → List Char
  | [] => []
  | b :: bs => hexDigitChar (b.val / 16) :: hexDigitChar (b.val % 16) :: hexEncodeBytes bs

def isHexDigitB (c : Char) : Bool := (hexVal c).isSome

/- UTF-8 codec. Encoding is the standard UTF-8 encoding of unicode scalar
   values (what Buffer.from(s, 'utf8') computes for a string of scalar values).
   Decoding follows the WHATWG/StringDecoder behavior of substituting U+FFFD
   for invalid sequences rather than failing. -/

def replChar : Char := Char.ofNat 65533

def utf8EncodeCharM (c : Char) : List Byte :=
  if c.toNat < 128 then [mkByte c.toNat]
  else if c.toNat < 2048 then [mkByte (192 + c.toNat / 64), mkByte (128 + c.toNat % 64)]
  else if c.toNat < 65536 then
    [mkByte (224 + c.toNat / 4096), mkByte (128 + (c.toNat / 64) % 64),
     mkByte (128 + c.toNat % 64)]
  else
    [mkByte (240 + c.toNat / 262144), mkByte (128 + (c.toNat / 4096) % 64),
     mkByte (128 + (c.toNat / 64) % 64), mkByte (128 + c.toNat % 64)]

def isCont (b : Byte) : Bool := 128 ≤ b.val && b.val ≤ 191

def cont3ok (m : Nat) (c1 : Byte) : Bool :=
  if m = 224 then 160 ≤ c1.val && c1.val ≤ 191
  else if m = 237 then 128 ≤ c1.val && c1.val ≤ 159
  else isCont c1

def cont4ok (m : Nat) (c1 : Byte) : Bool :=
  if m = 240 then 144 ≤ c1.val && c1.val ≤ 191
  else if m = 244 then 128 ≤ c1.val && c1.val ≤ 143
  else isCont c1

def utf8DecodeOne (b : Byte) (rest : List Byte) : Char × Nat :=
  if b.val < 128 then (Char.ofNat b.val, 0)
  else if b.val < 194 then (replChar, 0)
  else if b.val ≤ 223 then
    if 1 ≤ rest.length ∧ isCont (rest.getD 0 (mkByte 0)) = true then
      (Char.ofNat ((b.val - 192) * 64 + ((rest.getD 0 (mkByte 0)).val - 128)), 1)
    else (replChar, 0)
  else if b.val ≤ 239 then
    if 2 ≤ rest.length ∧ cont3ok b.val (rest.getD 0 (mkByte 0)) = true
        ∧ isCont (rest.getD 1 (mkByte 0)) = true then
      (Char.ofNat ((b.val - 224) * 4096 + ((rest.getD 0 (mkByte 0)).val - 128) * 64
        + ((rest.getD 1 (mkByte 0)).val - 128)), 2)
    else (replChar, 0)
  else if b.val ≤ 244 then
    if 3 ≤ rest.length ∧ cont4ok b.val (rest.getD 0 (mkByte 0)) = true
        ∧ isCont (rest.getD 1 (mkByte 0)) = true ∧ isCont (rest.getD 2 (mkByte 0)) = true then
      (Char.ofNat ((b.val - 240) * 262144 + ((rest.getD 0 (mkByte 0)).val - 128) * 4096
        + ((rest.getD 1 (mkByte 0)).val - 128) * 64 + ((rest.getD 2 (mkByte 0)).val - 128)), 3)
    else (replChar, 0)
  else (replChar, 0)

def utf8DecodeFuel : Nat → List Byte → List Char
  | _, [] => []
  | 0, _ :: _ => []
  | f + 1, b :: rest =>
    (utf8DecodeOne b rest).1 :: utf8DecodeFuel f (rest.drop (utf8DecodeOne b rest).2)

def utf8Decode (l : List Byte) : List Char := utf8DecodeFuel l.length l

def utf8EncodeList : List Char → List Byte
  | [] => []
  | c :: cs => utf8EncodeCharM c ++ utf8EncodeList cs

/- SHA-256 (FIPS 180-4), on 32-bit words represented as Nat reduced mod 2^32. -/

def w32 (n : Nat) : Nat := n % 4294967296

def rotr32 (k x : Nat) : Nat := w32 (x / 2 ^ k + x % 2 ^ k * 2 ^ (32 - k))

def shr32 (k x : Nat) : Nat := x / 2 ^ k

def bnot32 (x : Nat) : Nat := x ^^^ 4294967295

def shaCh (e f g : Nat) : Nat := (e &&& f) ^^^ (bnot32 e &&& g)

def shaMaj (a b c : Nat) : Nat := (a &&& b) ^^^ (a &&& c) ^^^ (b &&& c)

def bigSigma0 (x : Nat) : Nat := rotr32 2 x ^^^ rotr32 13 x ^^^ rotr32 22 x

def bigSigma1 (x : Nat) : Nat := rotr32 6 x ^^^ rotr32 11 x ^^^ rotr32 25 x

def smallSigma0 (x : Nat) : Nat := rotr32 7 x ^^^ rotr32 18 x ^^^ shr32 3 x

def smallSigma1 (x : Nat) : Nat := rotr32 17 x ^^^ rotr32 19 x ^^^ shr32 10 x

def sha256K : List Nat :=
  [1116352408, 1899447441, 3049323471, 3921009573, 961987163, 1508970993, 2453635748, 2870763221,
   3624381080, 310598401, 607225278, 1426881987, 1925078388, 2162078206, 2614888103, 3248222580,
   3835390401, 4022224774, 264347078, 604807628, 770255983, 1249150122, 1555081692, 1996064986,
   2554220882, 2821834349, 2952996808, 3210313671, 3336571891, 3584528711, 113926993, 338241895,
   666307205, 773529912, 1294757372, 1396182291, 1695183700, 1986661051, 2177026350, 2456956037,
   2730485921, 2820302411, 3259730800, 3345764771, 3516065817, 3600352804, 4094571909, 275423344,
   430227734, 506948616, 659060556, 883997877, 958139571, 1322822218, 1537002063, 1747873779,
   1955562222, 2024104815, 2227730452, 2361852424, 2428436474, 2756734187, 3204031479, 3329325298]

structure Sha256State where
  a : Nat
  b : Nat
  c : Nat
  d : Nat
  e : Nat
  f : Nat
  g : Nat
  h : Nat

def sha256Init : Sha256State :=
  ⟨1779033703, 3144134277, 1013904242, 2773480762, 1359893119, 2600822924, 528734635, 1541459225⟩

def beWord (b0 b1 b2 b3 : Byte) : Nat :=
  b0.val * 16777216 + b1.val * 65536 + b2.val * 256 + b3.val

def chunkWords (chunk : List Byte) : List Nat :=
  (List.range 16).map (fun i =>
    beWord (chunk.getD (4 * i) (mkByte 0)) (chunk.getD (4 * i + 1) (mkByte 0))
      (chunk.getD (4 * i + 2) (mkByte 0)) (chunk.getD (4 * i + 3) (mkByte 0)))

def schedule (ws : List Nat) : List Nat :=
  (List.range 48).foldl
    (fun acc j =>
      acc ++ [w32 (smallSigma1 (acc.getD (j + 14) 0) + acc.getD (j + 9) 0
        + smallSigma0 (acc.getD (j + 1) 0) + acc.getD j 0)])
    ws

def compressStep (st : Sha256State) (kw : Nat × Nat) : Sha256State :=
  let t1 := w32 (st.h + bigSigma1 st.e + shaCh st.e st.f st.g + kw.1 + kw.2)
  let t2 := w32 (bigSigma0 st.a + shaMaj st.a st.b st.c)
  ⟨w32 (t1 + t2), st.a, st.b, st.c, w32 (st.d + t1), st.e, st.f, st.g⟩

def processChunk (st : Sha256State) (chunk : List Byte) : Sha256State :=
  let comp := (sha256K.zip (schedule (chunkWords chunk))).foldl compressStep st
  ⟨w32 (st.a + comp.a), w32 (st.b + comp.b), w32 (st.c + comp.c), w32 (st.d + comp.d),
   w32 (st.e + comp.e), w32 (st.f + comp.f), w32 (st.g + comp.g), w32 (st.h + comp.h)⟩

def beBytes8 (n : Nat) : List Byte :=
  [mkByte (n / 72057594037927936), mkByte (n / 281474976710656), mkByte (n / 1099511627776),
   mkByte (n / 4294967296), mkByte (n / 16777216), mkByte (n / 65536), mkByte (n / 256), mkByte n]

def sha256Pad (msg : List Byte) : List Byte :=
  msg ++ mkByte 128 :: List.replicate ((119 - msg.length % 64) % 64) (mkByte 0)
    ++ beBytes8 (8 * msg.length)

def chunks64Fuel : Nat → List Byte → List (List Byte)
  | _, [] => []
  | 0, _ :: _ => []
  | f + 1, b :: bs => (b :: bs).take 64 :: chunks64Fuel f ((b :: bs).drop 64)

def chunks64 (l : List Byte) : List (List Byte) := chunks64Fuel l.length l

def sha256Core (msg : List Byte) : Sha256State :=
  (chunks64 (sha256Pad msg)).foldl processChunk sha256Init

def wordBE4 (w : Nat) : List Byte :=
  [mkByte (w / 16777216), mkByte (w / 65536), mkByte (w / 256), mkByte w]

def sha256Bytes (msg : List Byte) : List Byte :=
  wordBE4 (sha256Core msg).a ++ wordBE4 (sha256Core msg).b ++ wordBE4 (sha256Core msg).c
    ++ wordBE4 (sha256Core msg).d ++ wordBE4 (sha256Core msg).e ++ wordBE4 (sha256Core msg).f
    ++ wordBE4 (sha256Core msg).g ++ wordBE4 (sha256Core msg).h

def sha256HexChars (msg : List Byte) : List Char := hexEncodeBytes (sha256Bytes msg)

/- The EncryptionService class (src/services/encryption.service.ts).
   Instances hold the hex-decoded key and IV Buffers. Errors are modeled as
   `Except String` values carrying the thrown Error message; the inner text of
   wrapped cipher faults is abbreviated to the salient OpenSSL/Node phrase. -/

structure EncryptionService where
  secretKey : List Byte
  iv : List Byte
deriving DecidableEq

def cfgErrRequires : String := "EncryptionService requires secretKey and iv"

def cfgErrKeyLen : String := "AES-256 requires a 32-byte secret key (64 hex chars)"

def cfgErrIvLen : String := "AES-256-CBC requires a 16-byte IV (32 hex chars)"

def encFailHead : String := "Encryption failed: "

def decFailHead : String := "Decryption failed: "

def encFailMsg (inner : String) : String := encFailHead ++ inner

def decFailMsg (inner : String) : String := decFailHead ++ inner

/-- Model of the TS constructor `new EncryptionService({secretKey, iv})`:
    rejects empty strings, hex-decodes both (Node Buffer semantics), then
    checks the decoded byte lengths (32 for the key, 16 for the IV). -/
def EncryptionService.create (secretKey iv : String) : Except String EncryptionService :=
  if secretKey = "" ∨ iv = "" then .error cfgErrRequires
  else if (hexPairs secretKey.data).length ≠ 32 then .error cfgErrKeyLen
  else if (hexPairs iv.data).length ≠ 16 then .error cfgErrIvLen
  else .ok ⟨hexPairs secretKey.data, hexPairs iv.data⟩

/-- Model of `encrypt`: UTF-8 encode, PKCS#7 pad, AES-256-CBC under the fixed
    key/IV, lowercase-hex encode. No failure is reachable for string input, so
    the result is a plain String (the try/catch wrapper never fires). -/
def EncryptionService.encrypt (svc : EncryptionService) (plaintext : String) : String :=
  String.mk (hexEncodeBytes (fromBlocks (cbcEnc svc.secretKey (listToBlock svc.iv)
    (toBlocks (pad (utf8EncodeList plaintext.data))))))

/-- Model of `decrypt`: Node rejects odd-length hex input in cipher.update;
    hex pairs are decoded leniently; OpenSSL rejects an empty or non
    block-aligned byte stream ("wrong final block length") and bad PKCS#7
    padding ("bad decrypt"); the plaintext bytes are converted to a string by
    the UTF-8 StringDecoder (lossy, never throws). Every failure is wrapped as
    "Decryption failed: ...". -/
def EncryptionService.decrypt (svc : EncryptionService) (ciphertext : String) :
    Except String String :=
  if ciphertext.length % 2 ≠ 0 then
    .error (decFailMsg ("invalid encoding for data length"))
  else if (hexPairs ciphertext.data).length = 0 ∨ (hexPairs ciphertext.data).length % 16 ≠ 0 then
    .error (decFailMsg ("wrong final block length"))
  else
    match unpad (fromBlocks (cbcDec svc.secretKey (listToBlock svc.iv)
        (toBlocks (hexPairs ciphertext.data)))) with
    | none => .error (decFailMsg ("bad decrypt"))
    | some m => .ok (String.mk (utf8Decode m))

/-- Model of `hash`: SHA-256 of the UTF-8 encoding, lowercase hex digest.
    The instance's key material is not consulted. -/
def EncryptionService.hash (_svc : EncryptionService) (value : String) : String :=
  String.mk (sha256HexChars (utf8EncodeList value.data))

/-- The fixed test key/IV pair used by the repository test suite. -/
def sampleService : EncryptionService :=
  ⟨hexPairs ("0123456789abcdef0123456789abcdef0123456789abcdef0123456789abcdef").data,
   hexPairs ("abcdef9876543210abcdef9876543210").data⟩

/- The factory / lifecycle layer (src/services/encryption.factory.ts).
   The module-level singleton `instance` is modeled as explicit state of type
   Option EncryptionService threaded through each operation; the external
   configuration object is a pair of optional strings; logger calls are
   modeled as a list of emitted messages. -/

structure Configs where
  AES_SECRET_KEY : Option String
  AES_IV : Option String

structure InitOverrides where
  secretKey : Option String
  iv : Option String

/-- JS truthiness of a string-or-undefined value: undefined and "" are falsy. -/
def truthy : Option String → Bool
  | none => false
  | some s => !(s == "")

def warnNotConfigured : String :=
  "[shared] EncryptionService not configured — encryption and decryption features disabled until initialized."

def infoInitialized : String := "[shared] EncryptionService initialized successfully."

def notInitMsg : String :=
  "[shared] EncryptionService not initialized. Call initEncryptionService() manually or set AES_SECRET_KEY/AES_IV in the environment."

def proxyNotInitMsg (prop : String) : String :=
  "[shared] EncryptionService accessed before initialization — cannot call \"" ++ prop
    ++ "\". Please call initEncryptionService() or set AES_SECRET_KEY/AES_IV first."

/-- Model of `initEncryptionService(options?)`: resolves each value from the
    override first and the configuration second; if either resolved value is
    falsy it logs a warning and clears the singleton; otherwise it constructs
    a service (a construction error propagates to the caller) and stores it.
    Returns the new singleton state and the log messages emitted. -/
def resolvedKey (options : Option InitOverrides) (cfg : Configs) : Option String :=
  (options.bind (fun o => o.secretKey)).orElse (fun _ => cfg.AES_SECRET_KEY)

def resolvedIv (options : Option InitOverrides) (cfg : Configs) : Option String :=
  (options.bind (fun o => o.iv)).orElse (fun _ => cfg.AES_IV)

def initEncryptionService (options : Option InitOverrides) (cfg : Configs) :
    Except String (Option EncryptionService × List String) :=
  if truthy (resolvedKey options cfg) = false ∨ truthy (resolvedIv options cfg) = false then
    .ok (none, [warnNotConfigured])
  else
    (EncryptionService.create ((resolvedKey options cfg).getD ("")) ((resolvedIv options cfg).getD (""))).map
      (fun svc => (some svc, [infoInitialized]))

/-- Model of `getEncryptionService()`: returns the singleton if set, otherwise
    lazily constructs one when the configuration provides both (truthy) values,
    otherwise throws the NotInitialized error. Returns the result together with
    the updated singleton state. -/
def getEncryptionService (cfg : Configs) (st : Option EncryptionService) :
    Except String (EncryptionService × Option EncryptionService) :=
  match st with
  | some svc => .ok (svc, some svc)
  | none =>
    if truthy cfg.AES_SECRET_KEY && truthy cfg.AES_IV then
      (EncryptionService.create (cfg.AES_SECRET_KEY.getD ("")) (cfg.AES_IV.getD (""))).map
        (fun svc => (svc, some svc))
    else .error notInitMsg

/-- Model of `isEncryptionServiceReady()`: true iff the singleton is set. -/
def isEncryptionServiceReady (st : Option EncryptionService) : Bool := st.isSome

/-- Model of `resetEncryptionService()`: clears the singleton. -/
def resetEncryptionService (_st : Option EncryptionService) : Option EncryptionService := none

/-- The three operations reachable through the `encryptionService` proxy. -/
inductive EncOp where
  | encrypt
  | decrypt
  | hash
deriving DecidableEq

def opName : EncOp → String
  | .encrypt => "encrypt"
  | .decrypt => "decrypt"
  | .hash => "hash"

/-- Calling an operation directly on a resolved EncryptionService instance. -/
def callOp (svc : EncryptionService) (op : EncOp) (arg : String) : Except String String :=
  match op with
  | .encrypt => .ok (svc.encrypt arg)
  | .decrypt => svc.decrypt arg
  | .hash => .ok (svc.hash arg)

/-- Model of one property access + call through the `encryptionService` Proxy:
    resolve the singleton (or lazily construct it from configuration, or throw
    the access error naming the requested property), then invoke the method on
    the resolved instance. Returns the result and the updated singleton. -/
def encryptionServiceAccess (cfg : Configs) (st : Option EncryptionService) (op : EncOp)
    (arg : String) : Except String (String × Option EncryptionService) :=
  match st with
  | some svc => (callOp svc op arg).map (fun r => (r, some svc))
  | none =>
    if truthy cfg.AES_SECRET_KEY && truthy cfg.AES_IV then
      (EncryptionService.create (cfg.AES_SECRET_KEY.getD ("")) (cfg.AES_IV.getD (""))).bind
        (fun svc => (callOp svc op arg).map (fun r => (r, some svc)))
    else .error (proxyNotInitMsg (opName op))

/- Validity of externally supplied configuration, following the spec of the
   configuration collaborator: each field is absent or a hex string of the
   required length (the zod schema enforces exactly this). -/

def isHexStrB (s : String) (n : Nat) : Bool :=
  s.data.length == n && s.data.all isHexDigitB

def validOptHex (v : Option String) (n : Nat) : Bool :=
  match v with
  | none => true
  | some s => isHexStrB s n

def ValidConfigs (cfg : Configs) : Prop :=
  validOptHex cfg.AES_SECRET_KEY 64 = true ∧ validOptHex cfg.AES_IV 32 = true

theorem xorLt256 {a b : Nat} (ha : a < 256) (hb : b < 256) : a ^^^ b < 256 := by
  have h : (256 : Nat) = 2 ^ 8 := by norm_num
  rw [h] at ha hb ⊢
  exact Nat.xor_lt_two_pow ha hb

theorem invSbox_sbox : ∀ b : Byte, invSbox (sbox b) = b := by decide

theorem groupA : ∀ x : Byte,
    bxor (mul14 (mul2 x)) (bxor (mul11 x) (bxor (mul13 x) (mul9 (mul3 x)))) = x := by decide

theorem groupB : ∀ x : Byte,
    bxor (mul14 (mul3 x)) (bxor (mul11 (mul2 x)) (bxor (mul13 x) (mul9 x))) = mkByte 0 := by
  decide

theorem groupC : ∀ x : Byte,
    bxor (mul14 x) (bxor (mul11 (mul3 x)) (bxor (mul13 (mul2 x)) (mul9 x))) = mkByte 0 := by
  decide

theorem groupD : ∀ x : Byte,
    bxor (mul14 x) (bxor (mul11 x) (bxor (mul13 (mul3 x)) (mul9 (mul2 x)))) = mkByte 0 := by
  decide

theorem two_mul_xor (x y : Nat) : 2 * (x ^^^ y) = 2 * x ^^^ 2 * y := by
  have h := Nat.xor_bit false x false y
  simpa [Nat.bit_val, Nat.two_mul] using h.symm

theorem mod256_xor (x y : Nat) : (x ^^^ y) % 256 = x % 256 ^^^ y % 256 := by
  have h256 : (256 : Nat) = 2 ^ 8 := by norm_num
  apply Nat.eq_of_testBit_eq
  intro i
  rw [h256]
  simp only [Nat.testBit_mod_two_pow, Nat.testBit_xor]
  cases x.testBit i <;> cases y.testBit i <;> cases decide (i < 8) <;> rfl

theorem testBit7_eq (x : Nat) : x.testBit 7 = decide (128 ≤ x % 256) := by
  rw [Nat.testBit_to_div_mod, decide_eq_decide]
  have h7 : (2 : Nat) ^ 7 = 128 := by norm_num
  rw [h7]
  omega

theorem xtime_bxor : ∀ a b : Byte, xtime (bxor a b) = bxor (xtime a) (xtime b) := by
  rintro ⟨x, hx⟩ ⟨y, hy⟩
  apply Fin.ext
  show (if 128 ≤ x ^^^ y then 2 * (x ^^^ y) % 256 ^^^ 27 else 2 * (x ^^^ y)) % 256
      = (if 128 ≤ x then 2 * x % 256 ^^^ 27 else 2 * x) % 256
        ^^^ (if 128 ≤ y then 2 * y % 256 ^^^ 27 else 2 * y) % 256
  have hxor : x ^^^ y < 256 := by
    have e : (2 : Nat) ^ 8 = 256 := by norm_num
    calc x ^^^ y < 2 ^ 8 := Nat.xor_lt_two_pow (by omega) (by omega)
      _ = 256 := e
  have hkey : decide (128 ≤ x ^^^ y) = (decide (128 ≤ x) ^^ decide (128 ≤ y)) := by
    have h := Nat.testBit_xor x y 7
    rw [testBit7_eq, testBit7_eq, testBit7_eq, Nat.mod_eq_of_lt hxor, Nat.mod_eq_of_lt hx,
      Nat.mod_eq_of_lt hy] at h
    exact h
  have hmain : 2 * (x ^^^ y) % 256 = 2 * x % 256 ^^^ 2 * y % 256 := by
    rw [← mod256_xor, two_mul_xor]
  have e1 : 2 * x % 256 % 256 = 2 * x % 256 := by omega
  have e2 : 2 * y % 256 % 256 = 2 * y % 256 := by omega
  have e3 : (27 : Nat) % 256 = 27 := by omega
  have exy : 2 * (x ^^^ y) % 256 % 256 = 2 * (x ^^^ y) % 256 := by omega
  rcases le_or_lt 128 x with hX | hX <;> rcases le_or_lt 128 y with hY | hY
  · have hc : ¬ 128 ≤ x ^^^ y := by
      simp [hX, hY] at hkey
      omega
    rw [if_pos hX, if_pos hY, if_neg hc, mod256_xor (2 * x % 256) 27,
      mod256_xor (2 * y % 256) 27, e1, e2, e3, hmain, Nat.xor_assoc,
      Nat.xor_comm (2 * y % 256) 27, Nat.xor_cancel_left]
  · have hc : 128 ≤ x ^^^ y := by
      simp [hX, not_le.mpr hY] at hkey
      exact hkey
    rw [if_pos hX, if_neg (not_le.mpr hY), if_pos hc, mod256_xor (2 * (x ^^^ y) % 256) 27,
      exy, e3, hmain, mod256_xor (2 * x % 256) 27, e1, e3, Nat.xor_assoc, Nat.xor_assoc,
      Nat.xor_comm (2 * y % 256) 27]
  · have hc : 128 ≤ x ^^^ y := by
      simp [not_le.mpr hX, hY] at hkey
      exact hkey
    rw [if_neg (not_le.mpr hX), if_pos hY, if_pos hc, mod256_xor (2 * (x ^^^ y) % 256) 27,
      exy, e3, hmain, mod256_xor (2 * y % 256) 27, e2, e3, Nat.xor_assoc]
  · have hc : ¬ 128 ≤ x ^^^ y := by
      simp [not_le.mpr hX, not_le.mpr hY] at hkey
      omega
    rw [if_neg (not_le.mpr hX), if_neg (not_le.mpr hY), if_neg hc, hmain]

theorem bxor_comm (a b : Byte) : bxor a b = bxor b a := Fin.ext (Nat.xor_comm _ _)

theorem bxor_assoc (a b c : Byte) : bxor (bxor a b) c = bxor a (bxor b c) :=
  Fin.ext (Nat.xor_assoc _ _ _)

theorem bxor_left_comm (a b c : Byte) : bxor a (bxor b c) = bxor b (bxor a c) := by
  rw [← bxor_assoc, bxor_comm a b, bxor_assoc]

theorem bxor_cancel_left (a b : Byte) : bxor a (bxor a b) = b :=
  Fin.ext (Nat.xor_cancel_left _ _)

theorem bxor_cancel_right (a b : Byte) : bxor (bxor a b) b = a :=
  Fin.ext (Nat.xor_cancel_right _ _)

theorem bxor_zero (a : Byte) : bxor a (mkByte 0) = a := by
  apply Fin.ext
  show a.val ^^^ 0 % 256 = a.val
  simp

theorem zero_bxor (a : Byte) : bxor (mkByte 0) a = a := by
  rw [bxor_comm]; exact bxor_zero a

theorem mul2_bxor (a b : Byte) : mul2 (bxor a b) = bxor (mul2 a) (mul2 b) := xtime_bxor a b

theorem mul3_bxor (a b : Byte) : mul3 (bxor a b) = bxor (mul3 a) (mul3 b) := by
  simp only [mul3, xtime_bxor]
  ac_rfl

theorem mul9_bxor (a b : Byte) : mul9 (bxor a b) = bxor (mul9 a) (mul9 b) := by
  simp only [mul9, xtime_bxor]
  ac_rfl

theorem mul11_bxor (a b : Byte) : mul11 (bxor a b) = bxor (mul11 a) (mul11 b) := by
  simp only [mul11, xtime_bxor]
  ac_rfl

theorem mul13_bxor (a b : Byte) : mul13 (bxor a b) = bxor (mul13 a) (mul13 b) := by
  simp only [mul13, xtime_bxor]
  ac_rfl

theorem mul14_bxor (a b : Byte) : mul14 (bxor a b) = bxor (mul14 a) (mul14 b) := by
  simp only [mul14, xtime_bxor]
  ac_rfl

theorem invMix_comp0 (a b c d : Byte) :
    invMixCol0 (mixCol0 a b c d) (mixCol1 a b c d) (mixCol2 a b c d) (mixCol3 a b c d) = a := by
  simp only [invMixCol0, mixCol0, mixCol1, mixCol2, mixCol3,
    mul14_bxor, mul11_bxor, mul13_bxor, mul9_bxor]
  calc _ = bxor (bxor (mul14 (mul2 a)) (bxor (mul11 a) (bxor (mul13 a) (mul9 (mul3 a)))))
        (bxor (bxor (mul14 (mul3 b)) (bxor (mul11 (mul2 b)) (bxor (mul13 b) (mul9 b))))
          (bxor (bxor (mul14 c) (bxor (mul11 (mul3 c)) (bxor (mul13 (mul2 c)) (mul9 c))))
            (bxor (mul14 d) (bxor (mul11 d) (bxor (mul13 (mul3 d)) (mul9 (mul2 d))))))) := by
        ac_rfl
    _ = a := by
        rw [groupA, groupB, groupC, groupD, zero_bxor, zero_bxor, bxor_zero]

theorem invMix_comp1 (a b c d : Byte) :
    invMixCol1 (mixCol0 a b c d) (mixCol1 a b c d) (mixCol2 a b c d) (mixCol3 a b c d) = b := by
  simp only [invMixCol1, mixCol0, mixCol1, mixCol2, mixCol3,
    mul14_bxor, mul11_bxor, mul13_bxor, mul9_bxor]
  calc _ = bxor (bxor (mul14 a) (bxor (mul11 a) (bxor (mul13 (mul3 a)) (mul9 (mul2 a)))))
        (bxor (bxor (mul14 (mul2 b)) (bxor (mul11 b) (bxor (mul13 b) (mul9 (mul3 b)))))
          (bxor (bxor (mul14 (mul3 c)) (bxor (mul11 (mul2 c)) (bxor (mul13 c) (mul9 c))))
            (bxor (mul14 d) (bxor (mul11 (mul3 d)) (bxor (mul13 (mul2 d)) (mul9 d)))))) := by
        ac_rfl
    _ = b := by
        rw [groupD, groupA, groupB, groupC, zero_bxor, bxor_zero, bxor_zero]

theorem invMix_comp2 (a b c d : Byte) :
    invMixCol2 (mixCol0 a b c d) (mixCol1 a b c d) (mixCol2 a b c d) (mixCol3 a b c d) = c := by
  simp only [invMixCol2, mixCol0, mixCol1, mixCol2, mixCol3,
    mul14_bxor, mul11_bxor, mul13_bxor, mul9_bxor]
  calc _ = bxor (bxor (mul14 a) (bxor (mul11 (mul3 a)) (bxor (mul13 (mul2 a)) (mul9 a))))
        (bxor (bxor (mul14 b) (bxor (mul11 b) (bxor (mul13 (mul3 b)) (mul9 (mul2 b)))))
          (bxor (bxor (mul14 (mul2 c)) (bxor (mul11 c) (bxor (mul13 c) (mul9 (mul3 c)))))
            (bxor (mul14 (mul3 d)) (bxor (mul11 (mul2 d)) (bxor (mul13 d) (mul9 d)))))) := by
        ac_rfl
    _ = c := by
        rw [groupC, groupD, groupA, groupB, zero_bxor, zero_bxor, bxor_zero]

theorem invMix_comp3 (a b c d : Byte) :
    invMixCol3 (mixCol0 a b c d) (mixCol1 a b c d) (mixCol2 a b c d) (mixCol3 a b c d) = d := by
  simp only [invMixCol3, mixCol0, mixCol1, mixCol2, mixCol3,
    mul14_bxor, mul11_bxor, mul13_bxor, mul9_bxor]
  calc _ = bxor (bxor (mul14 (mul3 a)) (bxor (mul11 (mul2 a)) (bxor (mul13 a) (mul9 a))))
        (bxor (bxor (mul14 b) (bxor (mul11 (mul3 b)) (bxor (mul13 (mul2 b)) (mul9 b))))
          (bxor (bxor (mul14 c) (bxor (mul11 c) (bxor (mul13 (mul3 c)) (mul9 (mul2 c)))))
            (bxor (mul14 (mul2 d)) (bxor (mul11 d) (bxor (mul13 d) (mul9 (mul3 d))))))) := by
        ac_rfl
    _ = d := by
        rw [groupB, groupC, groupD, groupA, zero_bxor, zero_bxor, zero_bxor]

theorem invSubBytes_subBytes (s : AesBlock) : invSubBytes (subBytes s) = s := by
  cases s
  simp only [subBytes, invSubBytes, invSbox_sbox]

theorem invShiftRows_shiftRows (s : AesBlock) : invShiftRows (shiftRows s) = s := rfl

theorem invMixColumns_mixColumns (s : AesBlock) : invMixColumns (mixColumns s) = s := by
  cases s
  simp only [mixColumns, invMixColumns, invMix_comp0, invMix_comp1, invMix_comp2, invMix_comp3]

theorem addRoundKey_addRoundKey (rk s : AesBlock) : addRoundKey rk (addRoundKey rk s) = s := by
  cases rk
  cases s
  simp only [addRoundKey, xorBlock, bxor_cancel_right]

theorem xorBlock_cancel (a b : AesBlock) : xorBlock a (xorBlock a b) = b := by
  cases a
  cases b
  simp only [xorBlock, bxor_cancel_left]

theorem aesInvRound_aesRound (rk s : AesBlock) : aesInvRound rk (aesRound rk s) = s := by
  simp only [aesInvRound, aesRound, addRoundKey_addRoundKey, invMixColumns_mixColumns,
    invShiftRows_shiftRows, invSubBytes_subBytes]

theorem foldr_aesInvRound_foldl (mids : List AesBlock) :
    ∀ init : AesBlock,
      mids.foldr aesInvRound (mids.foldl (fun st rk => aesRound rk st) init) = init := by
  induction mids with
  | nil => intro init; rfl
  | cons m ms ih =>
      intro init
      simp only [List.foldl_cons, List.foldr_cons]
      rw [ih (aesRound m init), aesInvRound_aesRound]

theorem decBlockWith_encBlockWith (rk0 : AesBlock) (mids : List AesBlock)
    (rkLast b : AesBlock) : decBlockWith rk0 mids rkLast (encBlockWith rk0 mids rkLast b) = b := by
  simp only [decBlockWith, encBlockWith, aesFinalRound, addRoundKey_addRoundKey,
    invShiftRows_shiftRows, invSubBytes_subBytes]
  rw [foldr_aesInvRound_foldl, addRoundKey_addRoundKey]

theorem decBlock_encBlock (kb : List Byte) (b : AesBlock) : decBlock kb (encBlock kb b) = b :=
  decBlockWith_encBlockWith _ _ _ _

theorem length_blockToList (s : AesBlock) : (blockToList s).length = 16 := rfl

theorem listToBlock_blockToList (s : AesBlock) : listToBlock (blockToList s) = s := by
  cases s
  rfl

theorem toBlocksFuel_congr :
    ∀ (f₁ f₂ : Nat) (l : List Byte), l.length ≤ f₁ → l.length ≤ f₂ →
      toBlocksFuel f₁ l = toBlocksFuel f₂ l := by
  intro f₁
  induction f₁ with
  | zero =>
      intro f₂ l h1 _
      rcases l with _ | ⟨b, bs⟩
      · cases f₂ <;> rfl
      · simp at h1
  | succ g ih =>
      intro f₂ l h1 h2
      rcases l with _ | ⟨b, bs⟩
      · cases f₂ <;> rfl
      · rcases f₂ with _ | g₂
        · simp at h2
        · rw [toBlocksFuel, toBlocksFuel]
          congr 1
          apply ih
          · rw [List.length_drop]
            simp only [List.length_cons] at h1 ⊢
            omega
          · rw [List.length_drop]
            simp only [List.length_cons] at h2 ⊢
            omega

theorem toBlocks_cons (b : Byte) (bs : List Byte) :
    toBlocks (b :: bs) = listToBlock ((b :: bs).take 16) :: toBlocks ((b :: bs).drop 16) := by
  rw [toBlocks]
  simp only [List.length_cons]
  rw [toBlocksFuel]
  congr 1
  apply toBlocksFuel_congr
  · rw [List.length_drop]
    simp only [List.length_cons]
    omega
  · exact Nat.le_refl _

theorem blockToList_listToBlock (l : List Byte) (h : l.length = 16) :
    blockToList (listToBlock l) = l := by
  apply List.ext_getElem
  · rw [length_blockToList, h]
  · intro i h1 h2
    rw [length_blockToList] at h1
    interval_cases i <;>
      simp [blockToList, listToBlock, List.getElem?_eq_getElem h2]

theorem toBlocks_append16 (l rest : List Byte) (h : l.length = 16) :
    toBlocks (l ++ rest) = listToBlock l :: toBlocks rest := by
  rcases l with _ | ⟨a, l⟩
  · simp at h
  · rw [List.cons_append, toBlocks_cons]
    rw [← List.cons_append]
    have h16 : (16 : Nat) = ((a :: l)).length := by omega
    rw [h16, List.take_left, List.drop_left]

theorem toBlocks_fromBlocks (blocks : List AesBlock) : toBlocks (fromBlocks blocks) = blocks := by
  induction blocks with
  | nil => simp [fromBlocks, toBlocks, toBlocksFuel]
  | cons b bs ih =>
      rw [fromBlocks, toBlocks_append16 _ _ (length_blockToList b), ih, listToBlock_blockToList]

theorem fromBlocks_toBlocks_aux :
    ∀ (n : Nat) (l : List Byte), l.length ≤ n → l.length % 16 = 0 →
      fromBlocks (toBlocks l) = l := by
  intro n
  induction n with
  | zero =>
      intro l hle h
      rcases l with _ | ⟨a, l⟩
      · simp [toBlocks, toBlocksFuel, fromBlocks]
      · simp at hle
  | succ m ih =>
      intro l hle h
      rcases l with _ | ⟨a, l⟩
      · simp [toBlocks, toBlocksFuel, fromBlocks]
      · rw [toBlocks_cons, fromBlocks]
        have hlen : (a :: l).length ≥ 16 := by
          rcases Nat.eq_zero_or_pos ((a :: l).length / 16) with h0 | hpos
          · have := Nat.div_add_mod (a :: l).length 16
            rw [h0, h] at this
            simp at this
          · have := Nat.div_add_mod (a :: l).length 16
            omega
        have htake : ((a :: l).take 16).length = 16 := by
          rw [List.length_take]
          omega
        rw [blockToList_listToBlock _ htake]
        have hrec : fromBlocks (toBlocks ((a :: l).drop 16)) = (a :: l).drop 16 := by
          apply ih
          · rw [List.length_drop]
            simp only [List.length_cons] at hle ⊢
            omega
          · rw [List.length_drop]
            omega
        rw [hrec]
        exact List.take_append_drop 16 (a :: l)

theorem fromBlocks_toBlocks (l : List Byte) (h : l.length % 16 = 0) :
    fromBlocks (toBlocks l) = l :=
  fromBlocks_toBlocks_aux l.length l (Nat.le_refl _) h

theorem cbcDec_cbcEnc (kb : List Byte) (bs : List AesBlock) :
    ∀ prev, cbcDec kb prev (cbcEnc kb prev bs) = bs := by
  induction bs with
  | nil => intro prev; rfl
  | cons b bs ih =>
      intro prev
      rw [cbcEnc, cbcDec, decBlock_encBlock, xorBlock_cancel, ih]

theorem padLen_pos (n : Nat) : 1 ≤ padLen n ∧ padLen n ≤ 16 := by
  unfold padLen
  omega

theorem length_pad (bs : List Byte) : (pad bs).length = bs.length + padLen bs.length := by
  rw [pad, List.length_append, List.length_replicate]

theorem length_pad_mod (bs : List Byte) : (pad bs).length % 16 = 0 := by
  rw [length_pad]
  unfold padLen
  omega

theorem length_pad_pos (bs : List Byte) : (pad bs).length ≠ 0 := by
  rw [length_pad]
  have := padLen_pos bs.length
  omega

theorem getLast?_replicate_succ (n : Nat) (x : Byte) :
    (List.replicate (n + 1) x).getLast? = some x := by
  induction n with
  | zero => rfl
  | succ m ih =>
      rw [List.replicate_succ]
      rw [List.getLast?_cons]
      rw [List.replicate_succ] at ih ⊢
      simp only [List.getLast?_cons] at ih ⊢
      exact ih

theorem unpad_pad (bs : List Byte) : unpad (pad bs) = some bs := by
  have hp := padLen_pos bs.length
  have hval : (mkByte (padLen bs.length)).val = padLen bs.length := by
    show padLen bs.length % 256 = padLen bs.length
    omega
  have hlast : (pad bs).getLast? = some (mkByte (padLen bs.length)) := by
    rw [pad]
    rw [List.getLast?_append_of_ne_nil]
    · rcases Nat.exists_eq_add_of_le hp.1 with ⟨k, hk⟩
      rw [show padLen bs.length = k + 1 by omega]
      exact getLast?_replicate_succ k _
    · apply List.ne_nil_of_length_pos
      rw [List.length_replicate]
      omega
  rw [unpad, hlast, unpadWith, hval]
  have hlen : (pad bs).length = bs.length + padLen bs.length := length_pad bs
  rw [if_neg (by omega)]
  have hsub : (pad bs).length - padLen bs.length = bs.length := by omega
  rw [hsub]
  have hdrop : (pad bs).drop bs.length
      = List.replicate (padLen bs.length) (mkByte (padLen bs.length)) := by
    rw [pad]
    exact List.drop_left bs _
  rw [hdrop]
  have hall : (List.replicate (padLen bs.length) (mkByte (padLen bs.length))).all
      (fun x => x == mkByte (padLen bs.length)) = true := by
    rw [List.all_eq_true]
    intro x hx
    rw [List.mem_replicate] at hx
    rw [hx.2]
    exact beq_self_eq_true _
  rw [if_pos hall]
  rw [pad, List.take_left]

theorem mkByte_val (n : Nat) : (mkByte n).val = n % 256 := rfl

theorem hexVal_hexDigitChar : ∀ h : Fin 16, hexVal (hexDigitChar h.val) = some h.val := by
  decide

theorem hexDigitChar_mem (n : Nat) : hexDigitChar n ∈ hexCharsL := by
  by_cases h : n < hexCharsL.length
  · rw [hexDigitChar, List.getD_eq_getElem _ _ h]
    exact List.getElem_mem h
  · rw [hexDigitChar, List.getD_eq_default _ _ (by omega)]
    decide

theorem hexEncodeBytes_mem (bs : List Byte) : ∀ c ∈ hexEncodeBytes bs, c ∈ hexCharsL := by
  induction bs with
  | nil => intro c hc; cases hc
  | cons b bs ih =>
      intro c hc
      rw [hexEncodeBytes] at hc
      rcases List.mem_cons.mp hc with rfl | hc
      · exact hexDigitChar_mem _
      rcases List.mem_cons.mp hc with rfl | hc
      · exact hexDigitChar_mem _
      · exact ih c hc

theorem length_hexEncodeBytes (bs : List Byte) :
    (hexEncodeBytes bs).length = 2 * bs.length := by
  induction bs with
  | nil => rfl
  | cons b bs ih =>
      rw [hexEncodeBytes]
      simp only [List.length_cons, ih]
      omega

theorem hexPairs_hexEncodeBytes (bs : List Byte) : hexPairs (hexEncodeBytes bs) = bs := by
  induction bs with
  | nil => rfl
  | cons b bs ih =>
      have h1 : hexVal (hexDigitChar (b.val / 16)) = some (b.val / 16) :=
        hexVal_hexDigitChar ⟨b.val / 16, by have := b.isLt; omega⟩
      have h2 : hexVal (hexDigitChar (b.val % 16)) = some (b.val % 16) :=
        hexVal_hexDigitChar ⟨b.val % 16, by have := b.isLt; omega⟩
      have hb : mkByte (16 * (b.val / 16) + b.val % 16) = b := by
        apply Fin.ext
        rw [mkByte_val]
        have := b.isLt
        omega
      simp only [hexEncodeBytes, hexPairs, h1, h2]
      rw [hb, ih]

theorem hexPairs_length_aux :
    ∀ (n : Nat) (l : List Char), l.length ≤ n → (∀ c ∈ l, isHexDigitB c = true) →
      (hexPairs l).length = l.length / 2 := by
  intro n
  induction n with
  | zero =>
      intro l hle _
      rcases l with _ | ⟨c, l⟩
      · rfl
      · simp at hle
  | succ m ih =>
      intro l hle hall
      rcases l with _ | ⟨c1, l⟩
      · rfl
      rcases l with _ | ⟨c2, l⟩
      · simp [hexPairs]
      · have hc1 : isHexDigitB c1 = true := hall c1 (by simp)
        have hc2 : isHexDigitB c2 = true := hall c2 (by simp)
        rw [isHexDigitB, Option.isSome_iff_exists] at hc1 hc2
        rcases hc1 with ⟨h, hh⟩
        rcases hc2 with ⟨l2, hl2⟩
        simp only [hexPairs, hh, hl2]
        simp only [List.length_cons]
        rw [ih l (by simp only [List.length_cons] at hle; omega)
          (fun c hc => hall c (by simp [hc]))]
        omega

theorem hexPairs_length (l : List Char) (hall : ∀ c ∈ l, isHexDigitB c = true) :
    (hexPairs l).length = l.length / 2 :=
  hexPairs_length_aux l.length l (Nat.le_refl _) hall

theorem utf8DecodeFuel_congr :
    ∀ (f₁ f₂ : Nat) (l : List Byte), l.length ≤ f₁ → l.length ≤ f₂ →
      utf8DecodeFuel f₁ l = utf8DecodeFuel f₂ l := by
  intro f₁
  induction f₁ with
  | zero =>
      intro f₂ l h1 _
      rcases l with _ | ⟨b, bs⟩
      · cases f₂ <;> rfl
      · simp at h1
  | succ g ih =>
      intro f₂ l h1 h2
      rcases l with _ | ⟨b, bs⟩
      · cases f₂ <;> rfl
      · rcases f₂ with _ | g₂
        · simp at h2
        · rw [utf8DecodeFuel, utf8DecodeFuel]
          congr 1
          apply ih
          · rw [List.length_drop]
            simp only [List.length_cons] at h1 ⊢
            omega
          · rw [List.length_drop]
            simp only [List.length_cons] at h2 ⊢
            omega

theorem utf8Decode_cons (b : Byte) (rest : List Byte) :
    utf8Decode (b :: rest)
      = (utf8DecodeOne b rest).1 :: utf8Decode (rest.drop (utf8DecodeOne b rest).2) := by
  rw [utf8Decode]
  simp only [List.length_cons]
  rw [utf8DecodeFuel]
  congr 1
  apply utf8DecodeFuel_congr
  · rw [List.length_drop]
    omega
  · exact Nat.le_refl _

theorem utf8Decode_encodeChar (c : Char) (rest : List Byte) :
    utf8Decode (utf8EncodeCharM c ++ rest) = c :: utf8Decode rest := by
  have hv : Nat.isValidChar c.toNat := c.valid
  rw [Nat.isValidChar] at hv
  by_cases h1 : c.toNat < 128
  · rw [utf8EncodeCharM, if_pos h1, List.cons_append, List.nil_append, utf8Decode_cons]
    have hd : utf8DecodeOne (mkByte c.toNat) rest = (Char.ofNat c.toNat, 0) := by
      rw [utf8DecodeOne]
      have hval : (mkByte c.toNat).val = c.toNat := by rw [mkByte_val]; omega
      rw [hval, if_pos h1]
    rw [hd, Char.ofNat_toNat, List.drop_zero]
  by_cases h2 : c.toNat < 2048
  · rw [utf8EncodeCharM, if_neg h1, if_pos h2, List.cons_append, List.cons_append,
      List.nil_append, utf8Decode_cons]
    have hb : (mkByte (192 + c.toNat / 64)).val = 192 + c.toNat / 64 := by
      rw [mkByte_val]; omega
    have hc1 : (mkByte (128 + c.toNat % 64)).val = 128 + c.toNat % 64 := by
      rw [mkByte_val]; omega
    have hcont : isCont (mkByte (128 + c.toNat % 64)) = true := by
      rw [isCont, hc1]
      simp only [Bool.and_eq_true, decide_eq_true_eq]
      omega
    have hd : utf8DecodeOne (mkByte (192 + c.toNat / 64)) (mkByte (128 + c.toNat % 64) :: rest)
        = (Char.ofNat c.toNat, 1) := by
      rw [utf8DecodeOne, hb, if_neg (by omega), if_neg (by omega), if_pos (by omega)]
      simp only [List.getD_cons_zero, List.length_cons]
      rw [if_pos ⟨by omega, hcont⟩, hc1]
      have harith : (192 + c.toNat / 64 - 192) * 64 + (128 + c.toNat % 64 - 128) = c.toNat := by
        omega
      rw [harith]
    rw [hd, Char.ofNat_toNat, List.drop_one, List.tail_cons]
  by_cases h3 : c.toNat < 65536
  · rw [utf8EncodeCharM, if_neg h1, if_neg h2, if_pos h3, List.cons_append, List.cons_append,
      List.cons_append, List.nil_append, utf8Decode_cons]
    have hb : (mkByte (224 + c.toNat / 4096)).val = 224 + c.toNat / 4096 := by
      rw [mkByte_val]; omega
    have hc1 : (mkByte (128 + (c.toNat / 64) % 64)).val = 128 + (c.toNat / 64) % 64 := by
      rw [mkByte_val]; omega
    have hc2 : (mkByte (128 + c.toNat % 64)).val = 128 + c.toNat % 64 := by
      rw [mkByte_val]; omega
    have hcont3 : cont3ok (224 + c.toNat / 4096) (mkByte (128 + (c.toNat / 64) % 64)) = true := by
      rw [cont3ok]
      by_cases hq0 : c.toNat / 4096 = 0
      · rw [if_pos (by omega), hc1]
        simp only [Bool.and_eq_true, decide_eq_true_eq]
        omega
      · by_cases hq13 : c.toNat / 4096 = 13
        · rw [if_neg (by omega), if_pos (by omega), hc1]
          simp only [Bool.and_eq_true, decide_eq_true_eq]
          omega
        · rw [if_neg (by omega), if_neg (by omega), isCont, hc1]
          simp only [Bool.and_eq_true, decide_eq_true_eq]
          omega
    have hcont2 : isCont (mkByte (128 + c.toNat % 64)) = true := by
      rw [isCont, hc2]
      simp only [Bool.and_eq_true, decide_eq_true_eq]
      omega
    have hd : utf8DecodeOne (mkByte (224 + c.toNat / 4096))
        (mkByte (128 + (c.toNat / 64) % 64) :: mkByte (128 + c.toNat % 64) :: rest)
        = (Char.ofNat c.toNat, 2) := by
      rw [utf8DecodeOne, hb, if_neg (by omega), if_neg (by omega), if_neg (by omega),
        if_pos (by omega)]
      simp only [List.getD_cons_zero, List.getD_cons_succ, List.length_cons]
      rw [if_pos ⟨by omega, hcont3, hcont2⟩, hc1, hc2]
      have harith : (224 + c.toNat / 4096 - 224) * 4096 + (128 + (c.toNat / 64) % 64 - 128) * 64
          + (128 + c.toNat % 64 - 128) = c.toNat := by
        omega
      rw [harith]
    rw [hd, Char.ofNat_toNat]
    simp only [List.drop_succ_cons, List.drop_zero]
  · have h4 : c.toNat < 1114112 := by omega
    rw [utf8EncodeCharM, if_neg h1, if_neg h2, if_neg h3, List.cons_append, List.cons_append,
      List.cons_append, List.cons_append, List.nil_append, utf8Decode_cons]
    have hb : (mkByte (240 + c.toNat / 262144)).val = 240 + c.toNat / 262144 := by
      rw [mkByte_val]; omega
    have hc1 : (mkByte (128 + (c.toNat / 4096) % 64)).val = 128 + (c.toNat / 4096) % 64 := by
      rw [mkByte_val]; omega
    have hc2 : (mkByte (128 + (c.toNat / 64) % 64)).val = 128 + (c.toNat / 64) % 64 := by
      rw [mkByte_val]; omega
    have hc3 : (mkByte (128 + c.toNat % 64)).val = 128 + c.toNat % 64 := by
      rw [mkByte_val]; omega
    have hcont4 : cont4ok (240 + c.toNat / 262144) (mkByte (128 + (c.toNat / 4096) % 64))
        = true := by
      rw [cont4ok]
      by_cases hq0 : c.toNat / 262144 = 0
      · rw [if_pos (by omega), hc1]
        simp only [Bool.and_eq_true, decide_eq_true_eq]
        omega
      · by_cases hq4 : c.toNat / 262144 = 4
        · rw [if_neg (by omega), if_pos (by omega), hc1]
          simp only [Bool.and_eq_true, decide_eq_true_eq]
          omega
        · rw [if_neg (by omega), if_neg (by omega), isCont, hc1]
          simp only [Bool.and_eq_true, decide_eq_true_eq]
          omega
    have hcont2 : isCont (mkByte (128 + (c.toNat / 64) % 64)) = true := by
      rw [isCont, hc2]
      simp only [Bool.and_eq_true, decide_eq_true_eq]
      omega
    have hcont3 : isCont (mkByte (128 + c.toNat % 64)) = true := by
      rw [isCont, hc3]
      simp only [Bool.and_eq_true, decide_eq_true_eq]
      omega
    have hd : utf8DecodeOne (mkByte (240 + c.toNat / 262144))
        (mkByte (128 + (c.toNat / 4096) % 64) :: mkByte (128 + (c.toNat / 64) % 64)
          :: mkByte (128 + c.toNat % 64) :: rest)
        = (Char.ofNat c.toNat, 3) := by
      rw [utf8DecodeOne, hb, if_neg (by omega), if_neg (by omega), if_neg (by omega),
        if_neg (by omega), if_pos (by omega)]
      simp only [List.getD_cons_zero, List.getD_cons_succ, List.length_cons]
      rw [if_pos ⟨by omega, hcont4, hcont2, hcont3⟩, hc1, hc2, hc3]
      have harith : (240 + c.toNat / 262144 - 240) * 262144
          + (128 + (c.toNat / 4096) % 64 - 128) * 4096
          + (128 + (c.toNat / 64) % 64 - 128) * 64 + (128 + c.toNat % 64 - 128) = c.toNat := by
        omega
      rw [harith]
    rw [hd, Char.ofNat_toNat]
    simp only [List.drop_succ_cons, List.drop_zero]

theorem utf8Decode_utf8EncodeList (cs : List Char) :
    utf8Decode (utf8EncodeList cs) = cs := by
  induction cs with
  | nil => simp [utf8EncodeList, utf8Decode, utf8DecodeFuel]
  | cons c cs ih => rw [utf8EncodeList, utf8Decode_encodeChar, ih]

theorem length_sha256Bytes (msg : List Byte) : (sha256Bytes msg).length = 32 := by
  simp [sha256Bytes, wordBE4]

theorem length_sha256HexChars (msg : List Byte) : (sha256HexChars msg).length = 64 := by
  rw [sha256HexChars, length_hexEncodeBytes, length_sha256Bytes]

theorem length_fromBlocks (blocks : List AesBlock) :
    (fromBlocks blocks).length = 16 * blocks.length := by
  induction blocks with
  | nil => rfl
  | cons b bs ih =>
      rw [fromBlocks, List.length_append, ih, length_blockToList]
      simp only [List.length_cons]
      omega

theorem length_cbcEnc (kb : List Byte) (bs : List AesBlock) :
    ∀ prev, (cbcEnc kb prev bs).length = bs.length := by
  induction bs with
  | nil => intro prev; rfl
  | cons b bs ih =>
      intro prev
      rw [cbcEnc]
      simp only [List.length_cons, ih]

theorem toBlocks_ne_nil (l : List Byte) (h : l ≠ []) : toBlocks l ≠ [] := by
  rcases l with _ | ⟨a, l⟩
  · exact absurd rfl h
  · rw [toBlocks]
    exact List.cons_ne_nil _ _

theorem ne_empty_of_data_length {s : String} {n : Nat} (h : s.data.length = n) (hn : n ≠ 0) :
    s ≠ "" := by
  intro hs
  rw [hs] at h
  exact hn (by simpa using h.symm)

theorem create_ok_of_hex (k iv : String) (hk : isHexStrB k 64 = true)
    (hiv : isHexStrB iv 32 = true) :
    EncryptionService.create k iv = .ok ⟨hexPairs k.data, hexPairs iv.data⟩ := by
  rw [isHexStrB, Bool.and_eq_true, beq_iff_eq] at hk hiv
  have hklen : (hexPairs k.data).length = 32 := by
    rw [hexPairs_length k.data (List.all_eq_true.mp hk.2), hk.1]
  have hivlen : (hexPairs iv.data).length = 16 := by
    rw [hexPairs_length iv.data (List.all_eq_true.mp hiv.2), hiv.1]
  rw [EncryptionService.create]
  rw [if_neg (by
    rintro (h | h)
    · exact ne_empty_of_data_length hk.1 (by omega) h
    · exact ne_empty_of_data_length hiv.1 (by omega) h)]
  rw [if_neg (by omega), if_neg (by omega)]

theorem decFailMsg_ne_encFailMsg (i j : String) : decFailMsg i ≠ encFailMsg j := by
  intro h
  have h0 := congrArg (fun s => s.data.getD 0 'x') h
  simp only [decFailMsg, encFailMsg, decFailHead, encFailHead, String.data_append] at h0
  rw [List.getD_append _ _ _ _ (by decide), List.getD_append _ _ _ _ (by decide)] at h0
  exact absurd h0 (by decide)

/-- C1: for every string s, including the empty string and strings with
    multi-byte UTF-8 content, decrypting the result of encrypting s on the same
    EncryptionService instance returns s. -/
theorem C1_round_trip (svc : EncryptionService) (s : String) :
    svc.decrypt (svc.encrypt s) = .ok s := by
  rw [EncryptionService.encrypt, EncryptionService.decrypt]
  have hdata : (String.mk (hexEncodeBytes (fromBlocks (cbcEnc svc.secretKey (listToBlock svc.iv)
      (toBlocks (pad (utf8EncodeList s.data))))))).data
      = hexEncodeBytes (fromBlocks (cbcEnc svc.secretKey (listToBlock svc.iv)
        (toBlocks (pad (utf8EncodeList s.data))))) := rfl
  have hlen : (String.mk (hexEncodeBytes (fromBlocks (cbcEnc svc.secretKey (listToBlock svc.iv)
      (toBlocks (pad (utf8EncodeList s.data))))))).length
      = (hexEncodeBytes (fromBlocks (cbcEnc svc.secretKey (listToBlock svc.iv)
        (toBlocks (pad (utf8EncodeList s.data)))))).length := rfl
  rw [hdata, hlen, length_hexEncodeBytes, hexPairs_hexEncodeBytes]
  have hblen : (fromBlocks (cbcEnc svc.secretKey (listToBlock svc.iv)
      (toBlocks (pad (utf8EncodeList s.data))))).length
      = 16 * (toBlocks (pad (utf8EncodeList s.data))).length := by
    rw [length_fromBlocks, length_cbcEnc]
  have hne : toBlocks (pad (utf8EncodeList s.data)) ≠ [] := by
    intro hnil
    have := fromBlocks_toBlocks (pad (utf8EncodeList s.data)) (length_pad_mod _)
    rw [hnil] at this
    exact length_pad_pos _ (by rw [← this]; rfl)
  have hpos : 1 ≤ (toBlocks (pad (utf8EncodeList s.data))).length :=
    Nat.one_le_iff_ne_zero.mpr (fun h0 => hne (List.eq_nil_of_length_eq_zero h0))
  rw [if_neg (by omega), if_neg (by omega)]
  rw [toBlocks_fromBlocks, cbcDec_cbcEnc, fromBlocks_toBlocks _ (length_pad_mod _), unpad_pad]
  show Except.ok (String.mk (utf8Decode (utf8EncodeList s.data))) = Except.ok s
  rw [utf8Decode_utf8EncodeList]

/-- C2 counterexample: initEncryptionService does not return normally for every
    combination of override arguments and configuration values: overriding with
    non-empty but invalid key material makes the construction error propagate
    out of initEncryptionService. -/
theorem C2_counterexample :
    initEncryptionService (some ⟨some ("1234"), some ("abcd")⟩) ⟨none, none⟩
      = .error cfgErrKeyLen := rfl

/-- C2 amended: when either resolved value (override first, configuration as
    fallback) is missing or empty, initEncryptionService logs a warning, sets
    the singleton to none and returns without throwing; when the resolved
    values construct successfully it stores the new instance; a construction
    error for present-but-invalid resolved values propagates. -/
theorem C2_amended :
    (∀ (options : Option InitOverrides) (cfg : Configs),
      truthy (resolvedKey options cfg) = false ∨ truthy (resolvedIv options cfg) = false →
      initEncryptionService options cfg = .ok (none, [warnNotConfigured]))
    ∧ (∀ (options : Option InitOverrides) (cfg : Configs) (svc : EncryptionService),
      truthy (resolvedKey options cfg) = true → truthy (resolvedIv options cfg) = true →
      EncryptionService.create ((resolvedKey options cfg).getD (""))
        ((resolvedIv options cfg).getD ("")) = .ok svc →
      initEncryptionService options cfg = .ok (some svc, [infoInitialized]))
    ∧ (∀ (options : Option InitOverrides) (cfg : Configs) (e : String),
      truthy (resolvedKey options cfg) = true → truthy (resolvedIv options cfg) = true →
      EncryptionService.create ((resolvedKey options cfg).getD (""))
        ((resolvedIv options cfg).getD ("")) = .error e →
      initEncryptionService options cfg = .error e) := by
  refine ⟨?_, ?_, ?_⟩
  · intro options cfg h
    rw [initEncryptionService, if_pos h]
  · intro options cfg svc h1 h2 hcreate
    rw [initEncryptionService, if_neg (by rw [h1, h2]; rintro (h | h) <;> cases h), hcreate]
    rfl
  · intro options cfg e h1 h2 hcreate
    rw [initEncryptionService, if_neg (by rw [h1, h2]; rintro (h | h) <;> cases h), hcreate]
    rfl

theorem C2_witness : initEncryptionService none ⟨none, none⟩ = .ok (none, [warnNotConfigured]) :=
  C2_amended.1 none ⟨none, none⟩ (Or.inl rfl)

/-- C3: construction fails with the ConfigurationError message when secretKey
    or iv is empty, when the hex-decoded secretKey is not exactly 32 bytes, or
    when the hex-decoded iv is not exactly 16 bytes (in particular for a
    4-character key/IV); with a 64-hex-character key and a 32-hex-character IV
    it succeeds and the instance is bound to the decoded bytes. -/
theorem C3_construction_validation :
    (∀ k iv : String, k = "" ∨ iv = "" → EncryptionService.create k iv = .error cfgErrRequires)
    ∧ (∀ k iv : String, k ≠ "" → iv ≠ "" → (hexPairs k.data).length ≠ 32 →
        EncryptionService.create k iv = .error cfgErrKeyLen)
    ∧ (∀ k iv : String, k ≠ "" → iv ≠ "" → (hexPairs k.data).length = 32 →
        (hexPairs iv.data).length ≠ 16 → EncryptionService.create k iv = .error cfgErrIvLen)
    ∧ EncryptionService.create ("1234") ("abcd") = .error cfgErrKeyLen
    ∧ (∀ k iv : String, isHexStrB k 64 = true → isHexStrB iv 32 = true →
        EncryptionService.create k iv = .ok ⟨hexPairs k.data, hexPairs iv.data⟩) := by
  refine ⟨?_, ?_, ?_, rfl, create_ok_of_hex⟩
  · intro k iv h
    rw [EncryptionService.create, if_pos h]
  · intro k iv hk hiv hlen
    rw [EncryptionService.create, if_neg (by rintro (h | h); exacts [hk h, hiv h]), if_pos hlen]
  · intro k iv hk hiv hklen hivlen
    rw [EncryptionService.create, if_neg (by rintro (h | h); exacts [hk h, hiv h]),
      if_neg (fun h => h hklen), if_pos hivlen]

theorem C3_witness :
    EncryptionService.create ("") ("") = .error cfgErrRequires
    ∧ EncryptionService.create ("zz") ("abcd") = .error cfgErrKeyLen
    ∧ EncryptionService.create
        ("0000000000000000000000000000000000000000000000000000000000000000") ("abcd")
        = .error cfgErrIvLen
    ∧ EncryptionService.create ("1234") ("abcd") = .error cfgErrKeyLen
    ∧ EncryptionService.create
        ("0123456789abcdef0123456789abcdef0123456789abcdef0123456789abcdef")
        ("abcdef9876543210abcdef9876543210")
        = .ok ⟨hexPairs ("0123456789abcdef0123456789abcdef0123456789abcdef0123456789abcdef").data,
               hexPairs ("abcdef9876543210abcdef9876543210").data⟩ :=
  ⟨C3_construction_validation.1 _ _ (Or.inl rfl),
   C3_construction_validation.2.1 _ _ (by decide) (by decide) (by decide),
   C3_construction_validation.2.2.1 _ _ (by decide) (by decide) (by decide) (by decide),
   C3_construction_validation.2.2.2.1,
   C3_construction_validation.2.2.2.2 _ _ (by decide) (by decide)⟩

/-- C4: getEncryptionService returns the stored singleton if set; otherwise,
    with a configuration honoring the collaborator contract (fields absent or
    valid hex of the required length), if both values are provided it
    constructs, stores and returns an instance (isReady subsequently true),
    and if not it fails with the NotInitializedError message describing how to
    initialize — no silent fallback, no default key. -/
theorem C4_get_instance (cfg : Configs) (hvalid : ValidConfigs cfg) :
    (∀ svc : EncryptionService, getEncryptionService cfg (some svc) = .ok (svc, some svc))
    ∧ ((truthy cfg.AES_SECRET_KEY && truthy cfg.AES_IV) = true →
        ∃ svc : EncryptionService, getEncryptionService cfg none = .ok (svc, some svc)
          ∧ isEncryptionServiceReady (some svc) = true)
    ∧ ((truthy cfg.AES_SECRET_KEY && truthy cfg.AES_IV) = false →
        getEncryptionService cfg none = .error notInitMsg) := by
  rcases cfg with ⟨ok, oiv⟩
  refine ⟨fun svc => rfl, ?_, ?_⟩
  · intro hboth
    rcases ok with _ | k
    · simp [truthy] at hboth
    rcases oiv with _ | v
    · simp [truthy] at hboth
    have hk64 : isHexStrB k 64 = true := hvalid.1
    have hv32 : isHexStrB v 32 = true := hvalid.2
    refine ⟨⟨hexPairs k.data, hexPairs v.data⟩, ?_, rfl⟩
    simp only [getEncryptionService]
    rw [if_pos hboth]
    simp only [Option.getD_some]
    rw [create_ok_of_hex k v hk64 hv32]
    rfl
  · intro hfalse
    simp only [getEncryptionService]
    rw [if_neg (by rw [hfalse]; exact Bool.false_ne_true)]

theorem C4_witness :
    (∀ svc : EncryptionService,
      getEncryptionService
        ⟨some ("0123456789abcdef0123456789abcdef0123456789abcdef0123456789abcdef"),
         some ("abcdef9876543210abcdef9876543210")⟩ (some svc) = .ok (svc, some svc))
    ∧ ((truthy (some ("0123456789abcdef0123456789abcdef0123456789abcdef0123456789abcdef"))
          && truthy (some ("abcdef9876543210abcdef9876543210"))) = true →
        ∃ svc : EncryptionService,
          getEncryptionService
            ⟨some ("0123456789abcdef0123456789abcdef0123456789abcdef0123456789abcdef"),
             some ("abcdef9876543210abcdef9876543210")⟩ none = .ok (svc, some svc)
          ∧ isEncryptionServiceReady (some svc) = true)
    ∧ ((truthy (some ("0123456789abcdef0123456789abcdef0123456789abcdef0123456789abcdef"))
          && truthy (some ("abcdef9876543210abcdef9876543210"))) = false →
        getEncryptionService
          ⟨some ("0123456789abcdef0123456789abcdef0123456789abcdef0123456789abcdef"),
           some ("abcdef9876543210abcdef9876543210")⟩ none = .error notInitMsg) :=
  C4_get_instance _ ⟨by decide, by decide⟩

/-- C5: for every operation accessed on the encryptionService proxy, under the
    configuration collaborator contract: if the singleton is set the access
    behaves exactly as calling the operation directly on that instance; if
    lazy initialization succeeds, exactly as calling it on the constructed and
    stored instance; and if no configuration is available the access fails
    with the NotInitialized message that names the requested operation. -/
theorem C5_proxy_equivalence (cfg : Configs) (st : Option EncryptionService) (op : EncOp)
    (arg : String) (hvalid : ValidConfigs cfg) :
    (∀ svc, st = some svc →
      encryptionServiceAccess cfg st op arg = (callOp svc op arg).map (fun r => (r, some svc)))
    ∧ (st = none → (truthy cfg.AES_SECRET_KEY && truthy cfg.AES_IV) = true →
      ∃ svc, EncryptionService.create (cfg.AES_SECRET_KEY.getD ("")) (cfg.AES_IV.getD (""))
          = .ok svc
        ∧ encryptionServiceAccess cfg st op arg = (callOp svc op arg).map (fun r => (r, some svc)))
    ∧ (st = none → (truthy cfg.AES_SECRET_KEY && truthy cfg.AES_IV) = false →
      encryptionServiceAccess cfg st op arg = .error (proxyNotInitMsg (opName op))
        ∧ (opName op).data <:+: (proxyNotInitMsg (opName op)).data) := by
  rcases cfg with ⟨ok, oiv⟩
  refine ⟨?_, ?_, ?_⟩
  · intro svc hst
    subst hst
    rfl
  · intro hst hboth
    subst hst
    rcases ok with _ | k
    · simp [truthy] at hboth
    rcases oiv with _ | v
    · simp [truthy] at hboth
    have hk64 : isHexStrB k 64 = true := hvalid.1
    have hv32 : isHexStrB v 32 = true := hvalid.2
    refine ⟨⟨hexPairs k.data, hexPairs v.data⟩, ?_, ?_⟩
    · simp only [Option.getD_some]
      exact create_ok_of_hex k v hk64 hv32
    · simp only [encryptionServiceAccess]
      rw [if_pos hboth]
      simp only [Option.getD_some]
      rw [create_ok_of_hex k v hk64 hv32]
      rfl
  · intro hst hfalse
    subst hst
    constructor
    · simp only [encryptionServiceAccess]
      rw [if_neg (by rw [hfalse]; exact Bool.false_ne_true)]
    · rw [proxyNotInitMsg, String.data_append, String.data_append]
      exact List.infix_append _ _ _

theorem C5_witness :
    (∀ svc, (none : Option EncryptionService) = some svc →
      encryptionServiceAccess
        ⟨some ("0123456789abcdef0123456789abcdef0123456789abcdef0123456789abcdef"),
         some ("abcdef9876543210abcdef9876543210")⟩ none EncOp.hash ("x")
        = (callOp svc EncOp.hash ("x")).map (fun r => (r, some svc)))
    ∧ ((none : Option EncryptionService) = none →
      (truthy (some ("0123456789abcdef0123456789abcdef0123456789abcdef0123456789abcdef"))
        && truthy (some ("abcdef9876543210abcdef9876543210"))) = true →
      ∃ svc, EncryptionService.create
          ((some ("0123456789abcdef0123456789abcdef0123456789abcdef0123456789abcdef")).getD (""))
          ((some ("abcdef9876543210abcdef9876543210")).getD ("")) = .ok svc
        ∧ encryptionServiceAccess
            ⟨some ("0123456789abcdef0123456789abcdef0123456789abcdef0123456789abcdef"),
             some ("abcdef9876543210abcdef9876543210")⟩ none EncOp.hash ("x")
          = (callOp svc EncOp.hash ("x")).map (fun r => (r, some svc)))
    ∧ ((none : Option EncryptionService) = none →
      (truthy (some ("0123456789abcdef0123456789abcdef0123456789abcdef0123456789abcdef"))
        && truthy (some ("abcdef9876543210abcdef9876543210"))) = false →
      encryptionServiceAccess
        ⟨some ("0123456789abcdef0123456789abcdef0123456789abcdef0123456789abcdef"),
         some ("abcdef9876543210abcdef9876543210")⟩ none EncOp.hash ("x")
        = .error (proxyNotInitMsg (opName EncOp.hash))
      ∧ (opName EncOp.hash).data <:+: (proxyNotInitMsg (opName EncOp.hash)).data) :=
  C5_proxy_equivalence _ none EncOp.hash ("x") ⟨by decide, by decide⟩

/-- C6 counterexample: decrypt does not fail on every input that is not valid
    hex: appending the non-hex characters "zz" to a valid ciphertext is
    accepted, because Node hex decoding truncates at the first invalid pair
    instead of rejecting the input. -/
theorem C6_counterexample :
    sampleService.encrypt ("") = ("bd5d8691ec57a234e1f34c37f71a5064")
    ∧ sampleService.decrypt ("bd5d8691ec57a234e1f34c37f71a5064zz") = .ok ("")
    ∧ isHexDigitB ('z') = false := ⟨rfl, rfl, rfl⟩

/-- C6 amended: decrypt fails with a DecryptionError when the input has odd
    length, or when the (leniently) hex-decoded bytes are empty or not a
    multiple of the 16-byte block size, or when the CBC padding is invalid;
    in particular decrypt("deadbeef") fails; and every such message starts
    with "Decryption failed: " and differs from every EncryptionError
    message. Non-hex characters after a valid even-length prefix are dropped
    rather than rejected, and invalid UTF-8 plaintext is lossily replaced
    rather than rejected. -/
theorem C6_amended :
    (∀ (svc : EncryptionService) (ct : String), ct.length % 2 ≠ 0 →
      svc.decrypt ct = .error (decFailMsg ("invalid encoding for data length")))
    ∧ (∀ (svc : EncryptionService) (ct : String), ct.length % 2 = 0 →
      (hexPairs ct.data).length = 0 ∨ (hexPairs ct.data).length % 16 ≠ 0 →
      svc.decrypt ct = .error (decFailMsg ("wrong final block length")))
    ∧ (∀ (svc : EncryptionService) (ct : String), ct.length % 2 = 0 →
      ¬((hexPairs ct.data).length = 0 ∨ (hexPairs ct.data).length % 16 ≠ 0) →
      unpad (fromBlocks (cbcDec svc.secretKey (listToBlock svc.iv)
        (toBlocks (hexPairs ct.data)))) = none →
      svc.decrypt ct = .error (decFailMsg ("bad decrypt")))
    ∧ sampleService.decrypt ("deadbeef") = .error (decFailMsg ("wrong final block length"))
    ∧ (∀ i j : String, decFailMsg i ≠ encFailMsg j) := by
  refine ⟨?_, ?_, ?_, rfl, decFailMsg_ne_encFailMsg⟩
  · intro svc ct h
    rw [EncryptionService.decrypt, if_pos h]
  · intro svc ct heven hbad
    rw [EncryptionService.decrypt, if_neg (fun h => h heven), if_pos hbad]
  · intro svc ct heven hgood hnone
    rw [EncryptionService.decrypt, if_neg (fun h => h heven), if_neg hgood, hnone]

theorem C6_witness :
    sampleService.decrypt ("abc") = .error (decFailMsg ("invalid encoding for data length")) :=
  C6_amended.1 sampleService ("abc") (by decide)

/-- C7: encryption is a deterministic, pure function of the plaintext and the
    bound key/IV: any two instances holding the same key bytes and the same
    (fixed, reused) IV bytes produce identical ciphertext for identical
    plaintext, so two encrypt calls on the same instance yield identical
    ciphertext. -/
theorem C7_fixed_iv_determinism (svc₁ svc₂ : EncryptionService) (s₁ s₂ : String)
    (hkey : svc₁.secretKey = svc₂.secretKey) (hiv : svc₁.iv = svc₂.iv) (hs : s₁ = s₂) :
    svc₁.encrypt s₁ = svc₂.encrypt s₂ := by
  cases svc₁
  cases svc₂
  simp only at hkey hiv
  subst hkey
  subst hiv
  subst hs
  rfl

theorem C7_witness : sampleService.encrypt ("msg") = sampleService.encrypt ("msg") :=
  C7_fixed_iv_determinism sampleService sampleService ("msg") ("msg") rfl rfl rfl

/-- C8: hash returns the lowercase hexadecimal SHA-256 digest of the UTF-8
    encoding of the value, always exactly 64 characters drawn from
    0-9 and a-f, and is deterministic and independent of the instance and its
    key/IV. -/
theorem C8_hash_properties (svc svc' : EncryptionService) (v : String) :
    svc.hash v = String.mk (sha256HexChars (utf8EncodeList v.data))
    ∧ (svc.hash v).length = 64
    ∧ (∀ c ∈ (svc.hash v).data, c ∈ hexCharsL)
    ∧ svc.hash v = svc'.hash v := by
  refine ⟨rfl, ?_, ?_, rfl⟩
  · show (sha256HexChars (utf8EncodeList v.data)).length = 64
    exact length_sha256HexChars _
  · intro c hc
    exact hexEncodeBytes_mem _ c hc

theorem C8_witness : (sampleService.hash ("A")).length = 64 :=
  (C8_hash_properties sampleService sampleService ("A")).2.1

/-- C9: resetEncryptionService always succeeds and clears the singleton;
    isReady is true iff the singleton is set; with no configuration and no
    prior initialization getEncryptionService fails with the NotInitialized
    error, and the same call after a reset reproduces exactly that failure. -/
theorem C9_lifecycle (cfg : Configs) (hk : cfg.AES_SECRET_KEY = none)
    (hiv : cfg.AES_IV = none) :
    (∀ st, resetEncryptionService st = none)
    ∧ (∀ st, isEncryptionServiceReady st = true ↔ ∃ svc, st = some svc)
    ∧ getEncryptionService cfg none = .error notInitMsg
    ∧ (∀ st, getEncryptionService cfg (resetEncryptionService st) = .error notInitMsg) := by
  rcases cfg with ⟨ok, oiv⟩
  simp only at hk hiv
  subst hk
  subst hiv
  refine ⟨fun st => rfl, ?_, rfl, fun st => rfl⟩
  intro st
  cases st <;> simp [isEncryptionServiceReady]

theorem C9_witness :
    getEncryptionService ⟨none, none⟩ none = .error notInitMsg :=
  (C9_lifecycle ⟨none, none⟩ rfl rfl).2.2.1

/-- C10: construction also succeeds on inputs that are not canonical
    64-character (resp. 32-character) hex strings, because only the decoded
    byte count is checked and Node hex decoding drops a trailing odd nibble
    and stops at the first non-hex character: a 65-hex-character key and a
    64-hex-character key followed by non-hex characters are both accepted. -/
theorem C10_noncanonical_hex_accepted :
    ("00000000000000000000000000000000000000000000000000000000000000000" : String).length = 65
    ∧ (EncryptionService.create
        ("00000000000000000000000000000000000000000000000000000000000000000")
        ("abcdef9876543210abcdef9876543210")).isOk = true
    ∧ ("0123456789abcdef0123456789abcdef0123456789abcdef0123456789abcdefzz" : String).length = 66
    ∧ isHexDigitB ('z') = false
    ∧ (EncryptionService.create
        ("0123456789abcdef0123456789abcdef0123456789abcdef0123456789abcdefzz")
        ("abcdef9876543210abcdef9876543210")).isOk = true :=
  ⟨rfl, rfl, rfl, rfl, rfl⟩
